import Mathlib

/-!
Shallow embedding of the FlashFloppy floppy-image track engine
(src/image/img.c and src/image/hfe.c), restricted to the parts needed by
the verified claims: the IMG type-table matcher, the MFM/FM track-geometry
builders, the sector-map construction, the BPB probers, the MFM emission
rule, and the HFE open/flux/write-encode paths.

Machine integers are modelled as Nat.  Where C truncates (uint8_t casts,
htobe16 value truncation, uint8_t sector-map entries) an explicit `% 256`
or `% 65536` appears.  Theorems carry hypotheses bounding inputs to the
ranges of the C types so the Nat model agrees with the uint32 arithmetic
of the source.  File and clock access (FatFS handles, sysclk_* conversion)
is external to the engine (spec section 6); file-derived inputs appear as
explicit parameters and clock conversions as function parameters.
-/

namespace FlashFloppy

/-- Bit-reversal of a byte.  Translates the C expression
`_rbit32(b) >> 24` (the ARM RBIT intrinsic, declared outside src/)
for a byte operand. -/
def rbit8 (b : Nat) : Nat :=
  (List.range 8).foldl (fun acc i => acc * 2 + (b >>> i) % 2) 0

/-- Translates the C rounding `(x + 31) & ~31u`: round up to a multiple
of 32 by clearing the low five bits of x+31 (exact for uint32 values). -/
def roundUp32 (x : Nat) : Nat := ((x + 31) >>> 5) <<< 5

/-- Translates the C rounding `(x + 256*8-1) & ~(256*8-1)` used at the
index wrap of hfe_rdata_flux: round up to a multiple of 2048 bits. -/
def roundUp2048 (x : Nat) : Nat := ((x + 2047) >>> 11) <<< 11

/-- Codec tag of an open image (`im->sync`). -/
inductive Sync where
  | mfm
  | fm
  | nosync
deriving DecidableEq

/-- One entry of the IMG type tables (`struct img_type`).  Fields keep the
packed encodings of the C bitfields: `nr_sides` stores sides−1 (`_S`),
`cyls` stores cylinders/40 (`_C`), `rpm` stores rpm/60−5 (`_R`). -/
structure ImgType where
  nr_secs : Nat
  nr_sides : Nat
  has_iam : Nat
  gap3 : Nat
  interleave : Nat
  no : Nat
  base : Nat
  inter_track_numbering : Nat
  skew : Nat
  cyls : Nat
  rpm : Nat
deriving DecidableEq

def _IAM : Nat := 1
def _ITN : Nat := 1
def _C (cyls : Nat) : Nat := cyls / 40
def _R (rpm : Nat) : Nat := rpm / 60 - 5
def _S (sides : Nat) : Nat := sides - 1

/-- The default IMG type table (`img_type[]`); the zero terminator entry
of the C array is represented by the end of the list. -/
def img_type : List ImgType := [
  ⟨ 8, _S 1, _IAM, 84, 1, 2, 1, 0, 0, _C 40, _R 300⟩,  -- 160k
  ⟨ 9, _S 1, _IAM, 84, 1, 2, 1, 0, 0, _C 40, _R 300⟩,  -- 180k
  ⟨10, _S 1, _IAM, 30, 1, 2, 1, 0, 0, _C 40, _R 300⟩,  -- 200k
  ⟨ 8, _S 2, _IAM, 84, 1, 2, 1, 0, 0, _C 40, _R 300⟩,  -- 320k
  ⟨ 9, _S 2, _IAM, 84, 1, 2, 1, 0, 0, _C 40, _R 300⟩,  -- 360k (#1)
  ⟨10, _S 2, _IAM, 30, 1, 2, 1, 0, 0, _C 40, _R 300⟩,  -- 400k (#1)
  ⟨15, _S 2, _IAM, 84, 1, 2, 1, 0, 0, _C 80, _R 360⟩,  -- 1.2MB
  ⟨ 9, _S 1, _IAM, 84, 1, 2, 1, 0, 0, _C 80, _R 300⟩,  -- 360k (#2)
  ⟨10, _S 1, _IAM, 30, 1, 2, 1, 0, 0, _C 80, _R 300⟩,  -- 400k (#2)
  ⟨11, _S 1, _IAM,  3, 2, 2, 1, 0, 0, _C 80, _R 300⟩,  -- 440k
  ⟨ 8, _S 2, _IAM, 84, 1, 2, 1, 0, 0, _C 80, _R 300⟩,  -- 640k
  ⟨ 9, _S 2, _IAM, 84, 1, 2, 1, 0, 0, _C 80, _R 300⟩,  -- 720k
  ⟨10, _S 2, _IAM, 30, 1, 2, 1, 0, 0, _C 80, _R 300⟩,  -- 800k
  ⟨11, _S 2, _IAM,  3, 2, 2, 1, 0, 0, _C 80, _R 300⟩,  -- 880k
  ⟨18, _S 2, _IAM, 84, 1, 2, 1, 0, 0, _C 80, _R 300⟩,  -- 1.44M
  ⟨19, _S 2, _IAM, 70, 1, 2, 1, 0, 0, _C 80, _R 300⟩,  -- 1.52M
  ⟨21, _S 2, _IAM, 18, 2, 2, 1, 0, 0, _C 80, _R 300⟩,  -- 1.68M
  ⟨20, _S 2, _IAM, 40, 1, 2, 1, 0, 0, _C 80, _R 300⟩,  -- 1.6M
  ⟨36, _S 2, _IAM, 84, 1, 2, 1, 0, 0, _C 80, _R 300⟩]  -- 2.88M

/-- The Kaypro type table (`kaypro_type[]`): base sector 0 with
inter-track numbering. -/
def kaypro_type : List ImgType := [
  ⟨10, _S 1, _IAM, 30, 3, 2, 0, _ITN, 0, _C 40, _R 300⟩,  -- 200k
  ⟨10, _S 2, _IAM, 30, 3, 2, 0, _ITN, 0, _C 40, _R 300⟩,  -- 400k
  ⟨10, _S 2, _IAM, 30, 3, 2, 0, _ITN, 0, _C 80, _R 300⟩]  -- 800k

/-- The MSX type table (`msx_type[]`). -/
def msx_type : List ImgType := [
  ⟨ 8, _S 1, _IAM, 84, 1, 2, 1, 0, 0, _C 80, _R 300⟩,  -- 320k
  ⟨ 9, _S 1, _IAM, 84, 1, 2, 1, 0, 0, _C 80, _R 300⟩]  -- 360k

/-- Geometry fields of `im->img` (plus `im->nr_cyls`, `im->nr_sides`) as
they stand when `mfm_open` / `fm_open` is invoked by an opener. -/
structure ImgGeo where
  nr_cyls : Nat
  nr_sides : Nat
  nr_sectors : Nat
  sec_no : Nat
  interleave : Nat
  skew : Nat
  skew_cyls_only : Bool
  sec_base0 : Nat
  sec_base1 : Nat
  gap_2 : Nat
  gap_3 : Nat
  gap_4a : Nat
  rpm : Nat
  has_iam : Bool
  post_crc_syncs : Nat
  layout : Nat
  base_off : Nat
deriving DecidableEq

/-- All-zero `im->img` state (the `memset(&im->img, 0, ...)` baseline). -/
def zeroGeo : ImgGeo :=
  ⟨0, 0, 0, 0, 0, 0, false, 0, 0, 0, 0, 0, 0, false, 0, 0, 0⟩

/-- Image state after a successful `mfm_open` / `fm_open`: the geometry
fields together with the derived track-layout fields.  The clock-derived
fields (`stk_per_rev`, `ticks_per_cell`, `write_bc_ticks`) depend only on
the external clock contract and `tracklen_bc`/`data_rate` and are omitted. -/
structure ImgState where
  nr_cyls : Nat
  nr_sides : Nat
  nr_sectors : Nat
  sec_no : Nat
  interleave : Nat
  skew : Nat
  skew_cyls_only : Bool
  sec_base0 : Nat
  sec_base1 : Nat
  gap_2 : Nat
  gap_3 : Nat
  gap_4a : Nat
  gap_4 : Nat
  rpm : Nat
  has_iam : Bool
  post_crc_syncs : Nat
  layout : Nat
  base_off : Nat
  idx_sz : Nat
  idam_sz : Nat
  dam_sz_pre : Nat
  dam_sz_post : Nat
  data_rate : Nat
  tracklen_bc : Nat
  sync : Sync
deriving DecidableEq

/-- `sec_sz(im) = 128u << im->img.sec_no`. -/
def img_sec_sz (st : ImgState) : Nat := 128 <<< st.sec_no

/-- `enc_sec_sz(im) = idam_sz + dam_sz_pre + sec_sz(im) + dam_sz_post`. -/
def img_enc_sec_sz (st : ImgState) : Nat :=
  st.idam_sz + st.dam_sz_pre + img_sec_sz st + st.dam_sz_post

def GAP_1 : Nat := 50
def GAP_2 : Nat := 22
def GAP_4A : Nat := 80
def GAP_SYNC : Nat := 12

/-- The per-sector-size MFM GAP3 defaults (`GAP_3[]` in mfm_open). -/
def GAP_3_tbl : List Nat := [32, 54, 84, 116, 255, 255, 255, 255]

/-- `im->img.rpm = im->img.rpm ?: 300`. -/
def img_rpm (g : ImgGeo) : Nat := if g.rpm = 0 then 300 else g.rpm

def mfm_gap_2 (g : ImgGeo) : Nat := if g.gap_2 = 0 then GAP_2 else g.gap_2

def mfm_gap_3 (g : ImgGeo) : Nat :=
  if g.gap_3 = 0 then GAP_3_tbl.getD g.sec_no 255 else g.gap_3

def mfm_gap_4a (g : ImgGeo) : Nat := if g.gap_4a = 0 then GAP_4A else g.gap_4a

/-- `idx_sz = gap_4a` plus the IAM region when present (pre-fit value). -/
def mfm_idx_sz0 (g : ImgGeo) : Nat :=
  mfm_gap_4a g + (if g.has_iam then GAP_SYNC + 4 + GAP_1 else 0)

/-- `idam_sz = idam_gap_sync + 8 + 2 + gap_2 + post_crc_syncs` where
`idam_gap_sync = min(gap_3, GAP_SYNC)`. -/
def mfm_idam_sz (g : ImgGeo) : Nat :=
  min (mfm_gap_3 g) GAP_SYNC + 8 + 2 + mfm_gap_2 g + g.post_crc_syncs

def mfm_dam_sz_pre : Nat := GAP_SYNC + 4

def mfm_dam_sz_post (g : ImgGeo) : Nat := 2 + mfm_gap_3 g + g.post_crc_syncs

/-- Encoded sector size in bytes as computed inside mfm_open. -/
def mfm_ess (g : ImgGeo) : Nat :=
  mfm_idam_sz g + mfm_dam_sz_pre + (128 <<< g.sec_no) + mfm_dam_sz_post g

/-- Minimum track length in bitcells (`tracklen`, before the fit checks). -/
def mfm_tracklen0 (g : ImgGeo) : Nat :=
  (mfm_ess g * g.nr_sectors + mfm_idx_sz0 g) * 16

/-- The data-rate inference loop
`for (i = 0; i < 3; i++) if (tracklen < ((50000*300/rpm) << i) + 5000) break;`. -/
def mfm_rate_i (g : ImgGeo) : Nat :=
  if mfm_tracklen0 g < ((50000 * 300 / img_rpm g) <<< 0) + 5000 then 0
  else if mfm_tracklen0 g < ((50000 * 300 / img_rpm g) <<< 1) + 5000 then 1
  else if mfm_tracklen0 g < ((50000 * 300 / img_rpm g) <<< 2) + 5000 then 2
  else 3

/-- `data_rate = 250u << i` (the source's unit: kilo-bitcells per second;
its comment reads SD=250, DD=500, HD=1000, ED=2000). -/
def mfm_data_rate (g : ImgGeo) : Nat := 250 <<< mfm_rate_i g

/-- Standard track length `tracklen_bc = data_rate * 200 * 300 / rpm`. -/
def mfm_std_bc (g : ImgGeo) : Nat := mfm_data_rate g * 200 * 300 / img_rpm g

/-- The fit adjustment of mfm_open: if the encoded track exceeds the
standard length, first try dropping GAP4A, else extend ("long track").
Returns (tracklen, idx_sz, gap_4a, pre-rounding tracklen_bc). -/
def mfm_fit (g : ImgGeo) : Nat × Nat × Nat × Nat :=
  if mfm_std_bc g < mfm_tracklen0 g then
    if mfm_tracklen0 g - mfm_gap_4a g * 16 ≤ mfm_std_bc g then
      (mfm_tracklen0 g - mfm_gap_4a g * 16, mfm_idx_sz0 g - mfm_gap_4a g, 0,
       mfm_std_bc g)
    else
      (mfm_tracklen0 g, mfm_idx_sz0 g, mfm_gap_4a g, mfm_tracklen0 g + 100)
  else (mfm_tracklen0 g, mfm_idx_sz0 g, mfm_gap_4a g, mfm_std_bc g)

/-- `mfm_open`: geometry validation, gap defaults, layout sizes, data
rate, track length fitting and rounding.  `maxSec` is the capacity of the
`sec_map` array (ARRAY_SIZE(im->img.sec_map); the struct declaration is
not under src/ — the spec calls the bound MAX_SECS). -/
def mfm_open (maxSec : Nat) (g : ImgGeo) : Option ImgState :=
  if g.nr_sides < 1 ∨ g.nr_sides > 2 ∨ g.nr_cyls < 1 ∨ g.nr_cyls > 254
      ∨ g.nr_sectors < 1 ∨ g.nr_sectors > maxSec then
    none
  else
    some { nr_cyls := g.nr_cyls, nr_sides := g.nr_sides,
           nr_sectors := g.nr_sectors, sec_no := g.sec_no,
           interleave := g.interleave, skew := g.skew,
           skew_cyls_only := g.skew_cyls_only,
           sec_base0 := g.sec_base0, sec_base1 := g.sec_base1,
           gap_2 := mfm_gap_2 g, gap_3 := mfm_gap_3 g,
           gap_4a := (mfm_fit g).2.2.1,
           gap_4 := (roundUp32 (mfm_fit g).2.2.2 - (mfm_fit g).1) / 16,
           rpm := img_rpm g, has_iam := g.has_iam,
           post_crc_syncs := g.post_crc_syncs,
           layout := g.layout, base_off := g.base_off,
           idx_sz := (mfm_fit g).2.1, idam_sz := mfm_idam_sz g,
           dam_sz_pre := mfm_dam_sz_pre, dam_sz_post := mfm_dam_sz_post g,
           data_rate := mfm_data_rate g,
           tracklen_bc := roundUp32 (mfm_fit g).2.2.2,
           sync := Sync.mfm }

def FM_GAP_2 : Nat := 11
def FM_GAP_4A : Nat := 16
def FM_GAP_SYNC : Nat := 6

/-- The per-sector-size FM GAP3 defaults (`FM_GAP_3[]` in fm_open). -/
def FM_GAP_3_tbl : List Nat := [27, 42, 58, 138, 255, 255, 255, 255]

def fm_gap_2 (g : ImgGeo) : Nat := if g.gap_2 = 0 then FM_GAP_2 else g.gap_2

def fm_gap_3 (g : ImgGeo) : Nat :=
  if g.gap_3 = 0 then FM_GAP_3_tbl.getD g.sec_no 255 else g.gap_3

def fm_gap_4a (g : ImgGeo) : Nat := if g.gap_4a = 0 then FM_GAP_4A else g.gap_4a

def fm_idx_sz (g : ImgGeo) : Nat := fm_gap_4a g

def fm_idam_sz (g : ImgGeo) : Nat := FM_GAP_SYNC + 5 + 2 + fm_gap_2 g

def fm_dam_sz_pre : Nat := FM_GAP_SYNC + 1

def fm_dam_sz_post (g : ImgGeo) : Nat := 2 + fm_gap_3 g

def fm_ess (g : ImgGeo) : Nat :=
  fm_idam_sz g + fm_dam_sz_pre + (128 <<< g.sec_no) + fm_dam_sz_post g

def fm_tracklen0 (g : ImgGeo) : Nat :=
  (fm_ess g * g.nr_sectors + fm_idx_sz g) * 16

/-- FM standard track length; the data rate is fixed at SD (250). -/
def fm_std_bc (g : ImgGeo) : Nat := 250 * 200 * 300 / img_rpm g

/-- `fm_open`.  The source asserts `tracklen_bc > tracklen`
(ASSERT aborts the firmware); an assertion failure is modelled as
rejection. -/
def fm_open (maxSec : Nat) (g : ImgGeo) : Option ImgState :=
  if g.nr_sides < 1 ∨ g.nr_sides > 2 ∨ g.nr_cyls < 1 ∨ g.nr_cyls > 254
      ∨ g.nr_sectors < 1 ∨ g.nr_sectors > maxSec then
    none
  else if fm_std_bc g ≤ fm_tracklen0 g then
    none
  else
    some { nr_cyls := g.nr_cyls, nr_sides := g.nr_sides,
           nr_sectors := g.nr_sectors, sec_no := g.sec_no,
           interleave := g.interleave, skew := g.skew,
           skew_cyls_only := g.skew_cyls_only,
           sec_base0 := g.sec_base0, sec_base1 := g.sec_base1,
           gap_2 := fm_gap_2 g, gap_3 := fm_gap_3 g,
           gap_4a := fm_gap_4a g,
           gap_4 := (roundUp32 (fm_std_bc g) - fm_tracklen0 g) / 16,
           rpm := img_rpm g, has_iam := g.has_iam,
           post_crc_syncs := g.post_crc_syncs,
           layout := g.layout, base_off := g.base_off,
           idx_sz := fm_idx_sz g, idam_sz := fm_idam_sz g,
           dam_sz_pre := fm_dam_sz_pre, dam_sz_post := fm_dam_sz_post g,
           data_rate := 250,
           tracklen_bc := roundUp32 (fm_std_bc g),
           sync := Sync.fm }

/-- The `_img_open` table walk: for each entry try every cylinder count in
the class range (38..42 for 40-class, 77..85 otherwise) against the
payload size.  Returns the matched entry and cylinder count. -/
def img_type_find (size : Nat) : List ImgType → Option (ImgType × Nat)
  | [] => none
  | t :: rest =>
    let min_cyls := if t.cyls = _C 40 then 38 else 77
    let max_cyls := if t.cyls = _C 40 then 42 else 85
    let nr_sides := t.nr_sides + 1
    let cyl_sz := t.nr_secs * (128 <<< t.no) * nr_sides
    match (List.range (max_cyls + 1 - min_cyls)).find?
        (fun k => (min_cyls + k) * cyl_sz = size) with
    | some k => some (t, min_cyls + k)
    | none => img_type_find size rest

/-- `im_size(im) = f_size - base_off` (0 when the file is shorter than the
header). -/
def im_size (fsize base_off : Nat) : Nat :=
  if fsize < base_off then 0 else fsize - base_off

/-- `_img_open`: match the file size against a type table, copy the
matched geometry into the IMG block and invoke mfm_open.  `pre` is the
`im->img` content on entry (relevant fields: base_off, gap_2, gap_4a,
post_crc_syncs, skew_cyls_only, layout). -/
def _img_open (maxSec fsize : Nat) (pre : ImgGeo) (types : List ImgType) :
    Option ImgState :=
  match img_type_find (im_size fsize pre.base_off) types with
  | none => none
  | some (t, nr_cyls) =>
    mfm_open maxSec { pre with
      nr_cyls := nr_cyls,
      nr_sides := t.nr_sides + 1,
      sec_no := t.no,
      interleave := t.interleave,
      skew := t.skew,
      nr_sectors := t.nr_secs,
      gap_3 := t.gap3,
      rpm := (t.rpm + 5) * 60,
      sec_base0 := t.base,
      sec_base1 :=
        t.base + (if t.inter_track_numbering = _ITN then t.nr_secs else 0),
      has_iam := t.has_iam != 0 }

/-- The img_open host dispatch for a table-driven host: try the
host-specific table, on failure clear `im->img` and fall back to the
default list. -/
def img_open_host (maxSec : Nat) (types : List ImgType) (fsize : Nat) :
    Option ImgState :=
  match _img_open maxSec fsize zeroGeo types with
  | some st => some st
  | none => _img_open maxSec fsize zeroGeo img_type

/-- The BIOS parameter block fields read by `bpb_read` (each a 16-bit
little-endian word of the boot sector; `sig` is the word at offset 510). -/
structure Bpb where
  sig : Nat
  bytes_per_sec : Nat
  sec_per_track : Nat
  num_heads : Nat
  tot_sec : Nat
deriving DecidableEq

/-- `msx_open`: disambiguate 320k/360k images via the boot-sector BPB
(the 0xAA55 signature is deliberately not checked: it is not valid in
MSXDOS); otherwise walk the MSX-specific table.  Returns none when the
caller should fall back to the generic list. -/
def msx_open (maxSec : Nat) (bpb : Bpb) (fsize : Nat) : Option ImgState :=
  let bpbTry : Option ImgState :=
    if fsize = 320 * 1024 ∨ fsize = 360 * 1024 then
      if bpb.bytes_per_sec = 512 ∧ (bpb.num_heads = 1 ∨ bpb.num_heads = 2)
          ∧ bpb.tot_sec = fsize / bpb.bytes_per_sec
          ∧ (bpb.sec_per_track = 8 ∨ bpb.sec_per_track = 9) then
        mfm_open maxSec { zeroGeo with
          sec_no := 2,
          nr_sectors := bpb.sec_per_track,
          nr_sides := bpb.num_heads,
          nr_cyls := if bpb.num_heads = 1 then 80 else 40,
          interleave := 1,
          sec_base0 := 1, sec_base1 := 1,
          has_iam := true }
      else none
    else none
  match bpbTry with
  | some st => some st
  | none => _img_open maxSec fsize zeroGeo msx_type

/-- `pc_dos_open`: geometry comes entirely from the BPB; the 0xAA55 boot
signature is mandatory. -/
def pc_dos_open (maxSec : Nat) (bpb : Bpb) : Option ImgState :=
  if bpb.sig ≠ 0xaa55 then none
  else
    match (List.range 7).find? (fun n0 => 128 <<< n0 = bpb.bytes_per_sec) with
    | none => none
    | some sec_no =>
      if bpb.sec_per_track = 0 ∨ bpb.sec_per_track > maxSec then none
      else if bpb.num_heads ≠ 1 ∧ bpb.num_heads ≠ 2 then none
      else
        let nr_cyls := (bpb.tot_sec + bpb.sec_per_track * bpb.num_heads - 1)
          / (bpb.sec_per_track * bpb.num_heads)
        if nr_cyls = 0 then none
        else mfm_open maxSec { zeroGeo with
          sec_no := sec_no,
          nr_sectors := bpb.sec_per_track,
          nr_sides := bpb.num_heads,
          nr_cyls := nr_cyls,
          interleave := 1,
          sec_base0 := 1, sec_base1 := 1,
          has_iam := true }

/-- The scan `while (sec_map[pos] != 0xff) pos = (pos + 1) % n;`
with explicit fuel (the C loop relies on a free slot existing). -/
def findFree (m : List Nat) (pos : Nat) : Nat → Nat
  | 0 => pos
  | fuel + 1 =>
    if m.getD pos 255 = 255 then pos
    else findFree m ((pos + 1) % m.length) fuel

/-- The fill loop of img_seek_track: for i in [0, n), place sector ID
`i + base` (a uint8_t store, hence mod 256) at the next free rotational
slot, then advance by the interleave.  `fuel` counts the remaining loop
iterations (n - i), making the recursion structural. -/
def fillSecMap (n interleave base : Nat) :
    Nat → Nat → Nat → List Nat → List Nat
  | 0, _, _, m => m
  | fuel + 1, i, pos, m =>
    if i < n then
      let p := findFree m pos n
      fillSecMap n interleave base fuel (i + 1) ((p + interleave) % n)
        (m.set p ((i + base) % 256))
    else m

/-- The logical sector map in rotational order built by img_seek_track:
n bytes initialised to 0xff, start slot `(cyl-or-track * skew) % n`. -/
def secMap (n interleave skew base start_mult : Nat) : List Nat :=
  fillSecMap n interleave base n 0 ((start_mult * skew) % n)
    (List.replicate n 255)

/-- `sec_base(im) = im->img.sec_base[im->cur_track & (im->nr_sides - 1)]`. -/
def sec_base_sel (st : ImgState) (track : Nat) : Nat :=
  if track &&& (st.nr_sides - 1) = 0 then st.sec_base0 else st.sec_base1

/-- `img_seek_track`: build the rotational sector map and the file offset
of the track.  Returns (sec_map, trk_off). -/
def img_seek_track (st : ImgState) (track cyl side : Nat) :
    List Nat × Nat :=
  let trk := cyl * st.nr_sides + side
  let m := secMap st.nr_sectors st.interleave st.skew (sec_base_sel st track)
    (if st.skew_cyls_only then cyl else trk)
  let trk_len := st.nr_sectors * img_sec_sz st
  let trk_off :=
    if st.layout = 2 then  -- LAYOUT_sequential_reverse_side1
      (if side ≠ 0 then 2 * st.nr_cyls - cyl - 1 else cyl) * trk_len
    else if st.layout = 1 then  -- LAYOUT_interleaved_swap_sides
      (trk ^^^ (st.nr_sides - 1)) * trk_len
    else trk * trk_len
  (m, trk_off + st.base_off)

/-- The clamping prologue of `img_setup_track`:
`uint8_t cyl = track/2, side = track&1;` then
`cyl = min_t(uint8_t, cyl, nr_cyls-1); side = min_t(uint8_t, side,
nr_sides-1); track = cyl*2 + side;`.  Returns (cyl, side, track). -/
def img_setup_track_pos (nr_cyls nr_sides track : Nat) : Nat × Nat × Nat :=
  let cyl := min (track / 2 % 256) ((nr_cyls - 1) % 256)
  let side := min (track &&& 1) ((nr_sides - 1) % 256)
  (cyl, side, cyl * 2 + side)

/-- Modelled from the spec: the 256-entry MFM encoding table `mfmtab`
(declared outside src/).  Each data byte maps to a 16-bit pattern that
interleaves a clock bit before every data bit, the clock being 1 exactly
when both neighbouring data bits are 0 (the previous data bit of the
first cell is taken as 0 inside the table; the cross-byte correction is
applied at emission time by emit_raw). -/
def mfmtabGo (b : Nat) : Nat → Nat → Nat → Nat
  | 0, _, acc => acc
  | k + 1, prev, acc =>
    let d := (b >>> k) % 2
    let c := if prev = 0 ∧ d = 0 then 1 else 0
    mfmtabGo b k d (acc * 4 + c * 2 + d)

def mfmtab (b : Nat) : Nat := mfmtabGo (b % 256) 8 0 0

/-- The emit_raw rule of mfm_read_track:
`bc_b[...] = htobe16(_r & ~(pr << 15))` where `pr` is the previous raw
pattern.  Modelled at value level (the htobe16 byte order is storage
layout): the `~` complement is the 32-bit one of the promoted C
expression, and the result is truncated to the stored 16-bit word. -/
def emit_raw (pr r : Nat) : Nat :=
  (r &&& (4294967295 ^^^ ((pr % 65536) <<< 15))) % 65536

/-- HFEv3 opcodes (4-bit codes with reversed bit order). -/
def OP_nop : Nat := 0
def OP_index : Nat := 8
def OP_bitrate : Nat := 4
def OP_skip : Nat := 12
def OP_rand : Nat := 2

/-- The fields of `struct disk_header` used by hfe_open (multi-byte
fields already byte-order decoded, as after le16toh). -/
structure HfeHeader where
  sig : String
  formatrevision : Nat
  nr_tracks : Nat
  nr_sides : Nat
  track_encoding : Nat
  bitrate : Nat
  rpm : Nat
  interface_mode : Nat
  track_list_offset : Nat
  write_allowed : Nat
  single_step : Nat
deriving DecidableEq

/-- Image state produced by hfe_open. -/
structure HfeState where
  is_v3 : Bool
  double_step : Bool
  tlut_base : Nat
  nr_cyls : Nat
  nr_sides : Nat
  write_bc_ticks : Nat
  ticks_per_cell : Nat
deriving DecidableEq

/-- `hfe_open`: signature / format revision dispatch, then the sanity
checks on nr_tracks, nr_sides and bitrate.  `f_sysclk_us` is the external
clock conversion (spec section 6).  The initial hfe_seek_track(im, 0) only
loads track-0 position state from the file and is outside this model. -/
def hfe_open (f_sysclk_us : Nat → Nat) (hdr : HfeHeader) : Option HfeState :=
  match (if hdr.sig = "HXCHFEV3" then
           (if hdr.formatrevision > 0 then none else some true)
         else if hdr.sig = "HXCPICFE" then
           (if hdr.formatrevision > 1 then none else some false)
         else none : Option Bool) with
  | none => none
  | some v3 =>
    if hdr.nr_tracks = 0 ∨ hdr.nr_sides < 1 ∨ hdr.nr_sides > 2
        ∨ hdr.bitrate = 0 then
      none
    else
      let double_step := hdr.single_step = 0
      let wbt := f_sysclk_us 500 / hdr.bitrate
      some { is_v3 := v3,
             double_step := double_step,
             tlut_base := hdr.track_list_offset,
             nr_cyls := if double_step then min (hdr.nr_tracks * 2) 255
                        else hdr.nr_tracks,
             nr_sides := hdr.nr_sides,
             write_bc_ticks := wbt,
             ticks_per_cell := wbt * 16 }

/-- Mutable state threaded through one iteration of the hfe_rdata_flux
while loop.  `ticks` is the local accumulator loaded from
`ticks_since_flux`; `index_pulses` is the pulse table as a total map. -/
structure HfeFluxState where
  bc_c : Nat
  cur_bc : Nat
  cur_ticks : Nat
  ticks : Nat
  ticks_per_cell : Nat
  write_bc_ticks : Nat
  tracklen_bc : Nat
  tracklen_ticks : Nat
  next_index_pulses_pos : Nat
  index_pulses : Nat → Nat
  index_pulses_len : Nat
  index_pulses_ver : Nat

/-- The bit-emission inner loop of hfe_rdata_flux: for each remaining bit
of x, accumulate one cell of ticks; each 1 bit emits the flux interval
`(ticks >> 4) - 1` and keeps the sub-cell remainder `ticks & 15`.
Returns the final accumulator and the emitted intervals. -/
def emitBits (tpc : Nat) : Nat → Nat → Nat → Nat × List Nat
  | 0, _, ticks => (ticks, [])
  | k + 1, x, ticks =>
    let t := ticks + tpc
    if x % 2 = 1 then
      let r := emitBits tpc k (x >>> 1) (t % 16)
      (r.1, ((t >>> 4) - 1) :: r.2)
    else
      emitBits tpc k (x >>> 1) t

/-- The common tail of a flux-emitting iteration: charge 8-y bitcells to
the position counters, then run the bit loop on x from bit y. -/
def hfe_finish_byte (s : HfeFluxState) (y x : Nat) : HfeFluxState × List Nat :=
  let r := emitBits s.ticks_per_cell (8 - y) x s.ticks
  ({ s with bc_c := s.bc_c + (8 - y),
            cur_bc := s.cur_bc + (8 - y),
            cur_ticks := s.cur_ticks + (8 - y) * s.ticks_per_cell,
            ticks := r.1 }, r.2)

/-- One iteration of the hfe_rdata_flux while loop (entered when at least
3 bytes of bitcells are buffered).  `buf` gives the byte of the read_bc
ring at a byte index (the ring mask is applied by the caller), `randByte`
the value the rand() call would produce, `maxPulses` the capacity
MAX_CUSTOM_PULSES of the index-pulse table (declared outside src/).
Returns the new state and the flux intervals emitted. -/
def hfe_rdata_flux_step (is_v3 : Bool) (f_sysclk_us : Nat → Nat)
    (maxPulses randByte : Nat) (buf : Nat → Nat) (s : HfeFluxState) :
    HfeFluxState × List Nat :=
  if s.cur_bc ≥ s.tracklen_bc then
    let chg := s.index_pulses_len ≠ s.next_index_pulses_pos
    ({ s with tracklen_ticks := s.cur_ticks,
              cur_bc := 0, cur_ticks := 0,
              bc_c := roundUp2048 s.bc_c,
              index_pulses_len := if chg then s.next_index_pulses_pos
                                  else s.index_pulses_len,
              index_pulses_ver := if chg then s.index_pulses_ver + 1
                                  else s.index_pulses_ver,
              next_index_pulses_pos := 0 }, [])
  else
    let y := s.bc_c % 8
    let x := buf (s.bc_c / 8) >>> y
    if is_v3 ∧ y = 0 ∧ x &&& 15 = 15 then
      match x >>> 4 with
      | 8 =>  -- OP_index, then fall through to the nop exit
        let upd := s.next_index_pulses_pos < maxPulses
          ∧ s.index_pulses s.next_index_pulses_pos ≠ s.cur_ticks
        ({ s with
           index_pulses := if upd then
               (fun j => if j = s.next_index_pulses_pos then s.cur_ticks
                         else s.index_pulses j)
             else s.index_pulses,
           index_pulses_ver := if upd then s.index_pulses_ver + 1
                               else s.index_pulses_ver,
           next_index_pulses_pos := s.next_index_pulses_pos + 1,
           bc_c := s.bc_c + 8, cur_bc := s.cur_bc + 8 }, [])
      | 4 =>  -- OP_bitrate: 16 bits consumed, no flux, new cell width
        let xop := rbit8 (buf (s.bc_c / 8 + 1))
        let tpc := f_sysclk_us 2 * 16 * xop / 72
        ({ s with ticks_per_cell := tpc,
                  write_bc_ticks := tpc / 16,
                  bc_c := s.bc_c + 2 * 8,
                  cur_bc := s.cur_bc + 2 * 8 }, [])
      | 12 =>  -- OP_skip: 16 bits plus 0-7 bits of the next byte
        let xs := rbit8 (buf (s.bc_c / 8 + 1)) &&& 7
        let s2 := { s with bc_c := s.bc_c + 2 * 8 + xs,
                           cur_bc := s.cur_bc + 2 * 8 + xs }
        hfe_finish_byte s2 xs (buf (s2.bc_c / 8) >>> xs)
      | 2 =>  -- OP_rand: substitute a pseudo-random byte
        hfe_finish_byte s y randByte
      | _ =>  -- OP_nop and unknown opcodes
        ({ s with bc_c := s.bc_c + 8, cur_bc := s.cur_bc + 8 }, [])
    else
      hfe_finish_byte s y x

/-- The write-encode loop of hfe_write_track (`for (i = 0; i < nr; i++)`
over the batch buffer): on an HFEv3 image a byte holding a non-rand
opcode is passed over (together with the operand byte of bitrate, and the
operand plus partially-skipped byte of skip); every other byte — rand
opcodes included — is overwritten with the next bit-reversed data byte.
`wb` is the write-batch window, `w` the byte cursor into it, `data` the
incoming write_bc ring (mask applied by the caller) and `c` its cursor. -/
def hfe_encode (is_v3 : Bool) (data : Nat → Nat) (wb : List Nat)
    (w c i nr : Nat) : List Nat :=
  if _h : i < nr then
    let x := wb.getD w 0
    if is_v3 ∧ x &&& 15 = 15 then
      if x >>> 4 = OP_skip then
        hfe_encode is_v3 data wb (w + 3) c (i + 3) nr
      else if x >>> 4 = OP_bitrate then
        hfe_encode is_v3 data wb (w + 2) c (i + 2) nr
      else if x >>> 4 = OP_rand then
        hfe_encode is_v3 data (wb.set w (rbit8 (data c))) (w + 1) (c + 1)
          (i + 1) nr
      else
        hfe_encode is_v3 data wb (w + 1) c (i + 1) nr
    else
      hfe_encode is_v3 data (wb.set w (rbit8 (data c))) (w + 1) (c + 1)
        (i + 1) nr
  else wb
termination_by nr - i

/-! ### Sector-map permutation infrastructure -/

lemma set_perm_cons_eraseIdx {α : Type} :
    ∀ (l : List α) (p : Nat) (v : α), p < l.length →
      (l.set p v).Perm (v :: l.eraseIdx p)
  | a :: l, 0, v, _ => by simp
  | a :: l, p + 1, v, h => by
    simp only [List.set_cons_succ, List.eraseIdx_cons_succ]
    exact ((set_perm_cons_eraseIdx l p v (by simpa using h)).cons a).trans
      (List.Perm.swap v a _)

lemma perm_getD_cons_eraseIdx {α : Type} (d : α) :
    ∀ (l : List α) (p : Nat), p < l.length →
      l.Perm (l.getD p d :: l.eraseIdx p)
  | a :: l, 0, _ => by simp
  | a :: l, p + 1, h => by
    simp only [List.eraseIdx_cons_succ, List.getD_cons_succ]
    exact ((perm_getD_cons_eraseIdx d l p (by simpa using h)).cons a).trans
      (List.Perm.swap _ a _)

lemma findFree_lt (m : List Nat) (h0 : 0 < m.length) :
    ∀ (fuel pos : Nat), pos < m.length → findFree m pos fuel < m.length := by
  intro fuel
  induction fuel with
  | zero => intro pos hp; simpa [findFree] using hp
  | succ fuel ih =>
    intro pos hp
    rw [findFree]
    split
    · exact hp
    · exact ih _ (Nat.mod_lt _ h0)

lemma findFree_free (m : List Nat) :
    ∀ (fuel pos : Nat), pos < m.length →
      (∃ t, t < fuel ∧ m.getD ((pos + t) % m.length) 255 = 255) →
      m.getD (findFree m pos fuel) 255 = 255 := by
  intro fuel
  induction fuel with
  | zero => intro pos _ h; exact absurd h.choose_spec.1 (by omega)
  | succ fuel ih =>
    intro pos hp h
    rw [findFree]
    split
    · assumption
    · rename_i hstop
      obtain ⟨t, ht, hfree⟩ := h
      have hpos : 0 < m.length := by omega
      rcases t with _ | s
      · rw [Nat.add_zero, Nat.mod_eq_of_lt hp] at hfree
        exact absurd hfree hstop
      · refine ih ((pos + 1) % m.length) (Nat.mod_lt _ hpos) ⟨s, by omega, ?_⟩
        rw [Nat.mod_add_mod]
        have : pos + 1 + s = pos + (s + 1) := by omega
        rw [this]
        exact hfree

lemma exists_free (m : List Nat) (hm : (255 : Nat) ∈ m) (pos : Nat)
    (hpos : pos < m.length) :
    ∃ t, t < m.length ∧ m.getD ((pos + t) % m.length) 255 = 255 := by
  obtain ⟨j, hj, hget⟩ := List.mem_iff_getElem.mp hm
  have hlen : 0 < m.length := by omega
  refine ⟨(m.length + j - pos) % m.length, Nat.mod_lt _ hlen, ?_⟩
  rw [Nat.add_comm pos, Nat.mod_add_mod]
  have h1 : m.length + j - pos + pos = m.length + j := by omega
  rw [h1, Nat.add_mod_left, Nat.mod_eq_of_lt hj]
  rw [List.getD_eq_getElem m 255 hj]
  exact hget

/-- Invariant of the fill loop over the byte-valued IDs actually stored
(uint8_t, hence mod 256): after i iterations the map holds the first i
IDs together with n-i residual 0xff entries.  The invariant is insensitive
to an ID aliasing the 0xff free-slot marker (an i with (i+base)%256 = 255
replaces one 255 entry by another), so no side condition on base is
needed. -/
lemma fillSecMap_perm (n interleave base : Nat) :
    ∀ (fuel i pos : Nat) (m : List Nat), n - i ≤ fuel → i ≤ n →
      pos < n → m.length = n →
      m.Perm (((List.range i).map (fun j => (j + base) % 256))
        ++ List.replicate (n - i) 255) →
      (fillSecMap n interleave base fuel i pos m).Perm
        ((List.range n).map (fun j => (j + base) % 256)) := by
  intro fuel
  induction fuel with
  | zero =>
    intro i pos m hfuel hi _ _ hinv
    have hin : i = n := by omega
    subst hin
    simpa [fillSecMap] using hinv
  | succ fuel ih =>
    intro i pos m hfuel hi hpos hlen hinv
    by_cases hlt : i < n
    · rw [fillSecMap, if_pos hlt]
      have hn0 : 0 < n := by omega
      have hmem : (255 : Nat) ∈ m := by
        refine hinv.mem_iff.mpr ?_
        exact List.mem_append_right _ (by
          exact List.mem_replicate.mpr ⟨by omega, rfl⟩)
      have hplt : findFree m pos n < n := by
        have := findFree_lt m (by omega) n pos (by omega)
        omega
      have hfree : m.getD (findFree m pos n) 255 = 255 := by
        refine findFree_free m n pos (by omega) ?_
        obtain ⟨t, ht, hfr⟩ := exists_free m hmem pos (by omega)
        exact ⟨t, by omega, hfr⟩
      set p := findFree m pos n with hp
      -- the multiset step: replace one 0xff slot by the new byte ID
      have h2 : m.Perm (255 :: m.eraseIdx p) := by
        have := perm_getD_cons_eraseIdx (255 : Nat) m p (by omega)
        rwa [hfree] at this
      obtain ⟨k, hk⟩ : ∃ k, n - i = k + 1 := ⟨n - i - 1, by omega⟩
      have h3 : (255 :: m.eraseIdx p).Perm
          (255 :: (((List.range i).map (fun j => (j + base) % 256))
            ++ List.replicate k 255)) := by
        refine (h2.symm.trans hinv).trans ?_
        rw [hk, List.replicate_succ]
        exact List.perm_middle
      have h4 : (m.eraseIdx p).Perm
          (((List.range i).map (fun j => (j + base) % 256))
            ++ List.replicate k 255) := h3.cons_inv
      have h5 : (m.set p ((i + base) % 256)).Perm
          (((List.range (i + 1)).map (fun j => (j + base) % 256))
            ++ List.replicate (n - (i + 1)) 255) := by
        refine (set_perm_cons_eraseIdx m p ((i + base) % 256)
          (by omega)).trans ?_
        have hk2 : n - (i + 1) = k := by omega
        rw [hk2, List.range_succ, List.map_append, List.map_singleton,
          List.append_assoc, List.singleton_append]
        exact (h4.cons ((i + base) % 256)).trans List.perm_middle.symm
      exact ih (i + 1) ((p + interleave) % n) _ (by omega) hlt
        (Nat.mod_lt _ hn0) (by simpa using hlen) h5
    · rw [fillSecMap, if_neg hlt]
      have hin : i = n := by omega
      subst hin
      simpa using hinv

/-- Main permutation property of the sector-map builder: for any
nonempty map, any base, interleave, skew product and start slot, the
result is a permutation of the byte IDs base..base+n-1 (taken mod 256,
exactly as the uint8_t stores truncate them). -/
lemma secMap_perm (n interleave skew base start_mult : Nat) (hn : 1 ≤ n) :
    (secMap n interleave skew base start_mult).Perm
      ((List.range n).map (fun j => (j + base) % 256)) := by
  refine fillSecMap_perm n interleave base n 0 _ _ (by omega)
    (by omega) (Nat.mod_lt _ (by omega)) (by simp) (by simp)

lemma roundUp32_eq (x : Nat) : roundUp32 x = (x + 31) / 32 * 32 := by
  simp only [roundUp32, Nat.shiftRight_eq_div_pow, Nat.shiftLeft_eq]

lemma mfm_open_pos {maxSec : Nat} {g : ImgGeo} {st : ImgState}
    (h : mfm_open maxSec g = some st) : 1 ≤ st.nr_sectors := by
  unfold mfm_open at h
  split at h
  · exact absurd h (by simp)
  · rename_i hcond
    rw [Option.some.injEq] at h
    subst h
    push_neg at hcond
    exact hcond.2.2.2.2.1

lemma fm_open_pos {maxSec : Nat} {g : ImgGeo} {st : ImgState}
    (h : fm_open maxSec g = some st) : 1 ≤ st.nr_sectors := by
  unfold fm_open at h
  split at h
  · exact absurd h (by simp)
  · split at h
    · exact absurd h (by simp)
    · rename_i hcond _
      rw [Option.some.injEq] at h
      subst h
      push_neg at hcond
      exact hcond.2.2.2.2.1

/-- C1: for every geometry accepted by mfm_open or fm_open (any sec_base,
any interleave and skew) and every track selected via img_seek_track
(side within the geometry), sec_map[0..nr_sectors) holds each sector ID
of sec_base[side] .. sec_base[side]+nr_sectors-1 exactly once — it is a
permutation of that range.  Sector IDs are uint8_t stores, so the range
is taken as byte values (mod 256); for every geometry with
sec_base+nr_sectors ≤ 256 — in particular base = 248, n = 8 — the mod is
inert and the range reads literally. -/
theorem C1_secmap_is_permutation (maxSec : Nat) (g : ImgGeo) (st : ImgState)
    (cyl side : Nat)
    (hopen : mfm_open maxSec g = some st ∨ fm_open maxSec g = some st)
    (_hside : side < st.nr_sides) :
    ((img_seek_track st (cyl * 2 + side) cyl side).1).Perm
      ((List.range st.nr_sectors).map
        (fun j => (j + sec_base_sel st (cyl * 2 + side)) % 256)) := by
  have hn : 1 ≤ st.nr_sectors := hopen.elim mfm_open_pos fm_open_pos
  exact secMap_perm _ _ _ _ _ hn

/-- The accepted PC 1.44M geometry (as _img_open hands it to mfm_open). -/
def pcGeo : ImgGeo :=
  ⟨80, 2, 18, 2, 1, 0, false, 1, 1, 0, 84, 0, 300, true, 0, 0, 0⟩

/-- A JVC-style geometry whose header sec_id byte puts the ID range right
up against the 0xff free-slot marker: base 248, 8 sectors, IDs 248..255. -/
def jvcHiGeo : ImgGeo :=
  ⟨35, 2, 8, 1, 3, 0, false, 248, 248, 0, 20, 54, 0, true, 0, 0, 0⟩

def imgStateZero : ImgState :=
  ⟨0, 0, 0, 0, 0, 0, false, 0, 0, 0, 0, 0, 0, 0, false, 0, 0, 0, 0, 0, 0, 0,
   0, 0, Sync.nosync⟩

def stPC : ImgState := (mfm_open 64 pcGeo).getD imgStateZero

def stJvcHi : ImgState := (mfm_open 64 jvcHiGeo).getD imgStateZero

theorem C1_secmap_is_permutation_witness :
    ((img_seek_track stPC (0 * 2 + 0) 0 0).1).Perm
      ((List.range stPC.nr_sectors).map
        (fun j => (j + sec_base_sel stPC (0 * 2 + 0)) % 256))
    ∧ ((img_seek_track stJvcHi (0 * 2 + 1) 0 1).1).Perm
      ((List.range stJvcHi.nr_sectors).map
        (fun j => (j + sec_base_sel stJvcHi (0 * 2 + 1)) % 256)) :=
  ⟨C1_secmap_is_permutation 64 pcGeo stPC 0 0 (Or.inl (by decide))
      (by decide),
   C1_secmap_is_permutation 64 jvcHiGeo stJvcHi 0 1 (Or.inl (by decide))
      (by decide)⟩

/-- C2: for every geometry accepted by mfm_open, the final track length
is a multiple of 32 bitcells, at least the minimum encoded length
tracklen = (idx_sz + nr_sectors*enc_sec_sz)*16 (with the post-fit
idx_sz), gap_4 = (tracklen_bc - tracklen)/16, and the GAP4A/IAM region
plus the encoded sectors plus GAP4 sum to tracklen_bc exactly. -/
theorem C2_tracklen_fit (maxSec : Nat) (g : ImgGeo) (st : ImgState)
    (hopen : mfm_open maxSec g = some st) :
    st.tracklen_bc % 32 = 0
    ∧ (st.idx_sz + st.nr_sectors * img_enc_sec_sz st) * 16 ≤ st.tracklen_bc
    ∧ st.gap_4 = (st.tracklen_bc
        - (st.idx_sz + st.nr_sectors * img_enc_sec_sz st) * 16) / 16
    ∧ st.idx_sz * 16 + st.nr_sectors * (img_enc_sec_sz st * 16)
        + st.gap_4 * 16 = st.tracklen_bc := by
  unfold mfm_open at hopen
  split at hopen
  · exact absurd hopen (by simp)
  · rw [Option.some.injEq] at hopen
    subst hopen
    simp only [img_enc_sec_sz, img_sec_sz]
    have hess : mfm_idam_sz g + mfm_dam_sz_pre + 128 <<< g.sec_no
        + mfm_dam_sz_post g = mfm_ess g := rfl
    rw [hess]
    have ht0 : mfm_tracklen0 g
        = (mfm_ess g * g.nr_sectors + mfm_idx_sz0 g) * 16 := rfl
    have hidx : mfm_gap_4a g ≤ mfm_idx_sz0 g := Nat.le_add_right _ _
    have hcomm : g.nr_sectors * mfm_ess g
        = mfm_ess g * g.nr_sectors := Nat.mul_comm _ _
    have hcomm2 : g.nr_sectors * (mfm_ess g * 16)
        = mfm_ess g * g.nr_sectors * 16 := by ring
    unfold mfm_fit
    split_ifs with h1 h2
    · dsimp only
      rw [roundUp32_eq]
      omega
    · dsimp only
      rw [roundUp32_eq]
      omega
    · dsimp only
      rw [roundUp32_eq]
      omega

theorem C2_tracklen_fit_witness :
    stPC.tracklen_bc % 32 = 0
    ∧ (stPC.idx_sz + stPC.nr_sectors * img_enc_sec_sz stPC) * 16
        ≤ stPC.tracklen_bc
    ∧ stPC.gap_4 = (stPC.tracklen_bc
        - (stPC.idx_sz + stPC.nr_sectors * img_enc_sec_sz stPC) * 16) / 16
    ∧ stPC.idx_sz * 16 + stPC.nr_sectors * (img_enc_sec_sz stPC * 16)
        + stPC.gap_4 * 16 = stPC.tracklen_bc :=
  C2_tracklen_fit 64 pcGeo stPC (by decide)

set_option maxRecDepth 4096 in
lemma mfmtab_lt (b : Nat) : mfmtab b < 65536 := by
  have h : ∀ c, c < 256 → mfmtabGo c 8 0 0 < 65536 := by decide
  exact h (b % 256) (Nat.mod_lt _ (by norm_num))

/-- Unfolding of the emit_raw mask: the emitted word is the raw pattern
with bit 15 (the leading clock bit) cleared exactly when the previous
pattern's data LSB was 1. -/
lemma emit_raw_eq (pr r : Nat) (hr : r < 65536) :
    emit_raw pr r = if pr % 2 = 1 then r &&& 32767 else r := by
  have h1 : (4294967295 : Nat) = 2 ^ 32 - 1 := by norm_num
  have h2 : (65536 : Nat) = 2 ^ 16 := by norm_num
  have h3 : (32767 : Nat) = 2 ^ 15 - 1 := by norm_num
  have hp0 : (pr % 2 ^ 16).testBit 0 = decide (pr % 2 = 1) := by
    rw [Nat.testBit_zero, Nat.mod_mod_of_dvd pr (by norm_num)]
  rw [emit_raw, h1, h2, h3]
  split_ifs with hpr
  · apply Nat.eq_of_testBit_eq
    intro i
    rw [Nat.testBit_mod_two_pow, Nat.testBit_land, Nat.testBit_land,
      Nat.testBit_xor, Nat.testBit_two_pow_sub_one,
      Nat.testBit_two_pow_sub_one, Nat.testBit_shiftLeft]
    rcases Nat.lt_or_ge i 15 with hi | hi
    · simp [show i < 16 from by omega, show i < 32 from by omega,
        show ¬(15 ≤ i) from by omega, show i < 15 from hi]
    · rcases eq_or_lt_of_le hi with hi15 | hi16
      · subst hi15
        simp [hp0, hpr, Nat.mod_mod_of_dvd pr (show (2:Nat) ∣ 65536 by norm_num)]
      · simp [show ¬(i < 16) from by omega, show ¬(i < 15) from by omega]
  · apply Nat.eq_of_testBit_eq
    intro i
    rw [Nat.testBit_mod_two_pow, Nat.testBit_land, Nat.testBit_xor,
      Nat.testBit_two_pow_sub_one, Nat.testBit_shiftLeft]
    rcases Nat.lt_or_ge i 15 with hi | hi
    · simp [show i < 16 from by omega, show i < 32 from by omega,
        show ¬(15 ≤ i) from by omega]
    · rcases eq_or_lt_of_le hi with hi15 | hi16
      · subst hi15
        simp [hp0, hpr, Nat.mod_mod_of_dvd pr (show (2:Nat) ∣ 65536 by norm_num)]
      · have hfalse : r.testBit i = false :=
          Nat.testBit_lt_two_pow (by
            calc r < 2 ^ 16 := by omega
            _ ≤ 2 ^ i := Nat.pow_le_pow_right (by norm_num) (by omega))
        simp [hfalse, show ¬(i < 16) from by omega]

lemma land_mod_two (x : Nat) : (x &&& 32767) % 2 = x % 2 := by
  have h0 : (x &&& 32767).testBit 0 = x.testBit 0 := by
    rw [Nat.testBit_land]
    simp [Nat.testBit_zero]
  rw [Nat.testBit_zero, Nat.testBit_zero] at h0
  rcases Nat.mod_two_eq_zero_or_one x with h | h <;>
    rcases Nat.mod_two_eq_zero_or_one (x &&& 32767) with h2 | h2 <;>
      simp [h, h2] at h0 ⊢

/-- Sanity check that the modelled table is the standard MFM one:
byte 0xA1 encodes to 0x44A9 (the 0x4489 sync is this pattern with the
deliberately missing clock bit). -/
lemma mfmtab_a1 : mfmtab 161 = 17577 := by decide

/-- C3: for every data byte b, the 16-bit word emitted into the read_bc
ring is mfmtab[b] with its top clock bit cleared exactly when the data
LSB of the previously emitted word is 1 (the threading variable pr holds
the previous raw pattern, whose LSB coincides with the emitted word's LSB
— last conjunct); the address-mark sync words 0x4489 and 0x5224 pass
through emit_raw unchanged. -/
theorem C3_mfm_emit_rule (b pr : Nat) (_hb : b < 256) (_hpr : pr < 65536) :
    emit_raw pr (mfmtab b)
      = (if pr % 2 = 1 then mfmtab b &&& 32767 else mfmtab b)
    ∧ emit_raw pr 17545 = 17545
    ∧ emit_raw pr 21028 = 21028
    ∧ emit_raw pr (mfmtab b) % 2 = mfmtab b % 2 := by
  have hm := mfmtab_lt b
  refine ⟨emit_raw_eq pr (mfmtab b) hm, ?_, ?_, ?_⟩
  · rw [emit_raw_eq pr 17545 (by norm_num)]
    split_ifs
    · decide
    · rfl
  · rw [emit_raw_eq pr 21028 (by norm_num)]
    split_ifs
    · decide
    · rfl
  · rw [emit_raw_eq pr (mfmtab b) hm]
    split_ifs
    · exact land_mod_two _
    · rfl

theorem C3_mfm_emit_rule_witness :
    emit_raw 17545 (mfmtab 78)
      = (if 17545 % 2 = 1 then mfmtab 78 &&& 32767 else mfmtab 78)
    ∧ emit_raw 17545 17545 = 17545
    ∧ emit_raw 17545 21028 = 21028
    ∧ emit_raw 17545 (mfmtab 78) % 2 = mfmtab 78 % 2 :=
  C3_mfm_emit_rule 78 17545 (by norm_num) (by norm_num)

/-- C9 counterexample: the request track = 512 has cylinder 512/2 = 256,
out of range for the 80-cylinder geometry, yet img_setup_track proceeds
on cylinder (256 mod 256) = 0 — not on the clamped last cylinder 79 the
claim predicts. -/
theorem C9_counterexample :
    512 / 2 ≥ 80
    ∧ (img_setup_track_pos 80 2 512).1 = 0
    ∧ (img_setup_track_pos 80 2 512).1 ≠ 80 - 1 := by decide

/-- C9 (amended): img_setup_track never rejects a track request.  The
cylinder is first truncated to uint8_t ((track/2) mod 256) and the side
to track mod 2; the truncated cylinder is clamped to nr_cyls-1, the side
to nr_sides-1, and setup proceeds on the in-range clamped track. -/
theorem C9_setup_track_clamps (nr_cyls nr_sides track : Nat)
    (hc : 1 ≤ nr_cyls) (hc2 : nr_cyls ≤ 254) (hs : 1 ≤ nr_sides)
    (hs2 : nr_sides ≤ 2) :
    (img_setup_track_pos nr_cyls nr_sides track).1 < nr_cyls
    ∧ (img_setup_track_pos nr_cyls nr_sides track).2.1 < nr_sides
    ∧ (track / 2 % 256 ≥ nr_cyls →
        (img_setup_track_pos nr_cyls nr_sides track).1 = nr_cyls - 1)
    ∧ (track % 2 ≥ nr_sides →
        (img_setup_track_pos nr_cyls nr_sides track).2.1 = nr_sides - 1)
    ∧ (track / 2 % 256 < nr_cyls →
        (img_setup_track_pos nr_cyls nr_sides track).1 = track / 2 % 256)
    ∧ (img_setup_track_pos nr_cyls nr_sides track).2.2
      = (img_setup_track_pos nr_cyls nr_sides track).1 * 2
        + (img_setup_track_pos nr_cyls nr_sides track).2.1 := by
  unfold img_setup_track_pos
  dsimp only
  rw [Nat.and_one_is_mod]
  have h1 : (nr_cyls - 1) % 256 = nr_cyls - 1 := Nat.mod_eq_of_lt (by omega)
  have h2 : (nr_sides - 1) % 256 = nr_sides - 1 := Nat.mod_eq_of_lt (by omega)
  rw [h1, h2]
  simp only [Nat.min_def]
  split_ifs
  all_goals exact ⟨by omega, by omega, by omega, by omega, by omega, trivial⟩

theorem C9_setup_track_clamps_witness :
    (img_setup_track_pos 80 2 200).1 < 80
    ∧ (img_setup_track_pos 80 2 200).2.1 < 2
    ∧ (200 / 2 % 256 ≥ 80 → (img_setup_track_pos 80 2 200).1 = 80 - 1)
    ∧ (200 % 2 ≥ 2 → (img_setup_track_pos 80 2 200).2.1 = 2 - 1)
    ∧ (200 / 2 % 256 < 80 → (img_setup_track_pos 80 2 200).1 = 200 / 2 % 256)
    ∧ (img_setup_track_pos 80 2 200).2.2
      = (img_setup_track_pos 80 2 200).1 * 2
        + (img_setup_track_pos 80 2 200).2.1 :=
  C9_setup_track_clamps 80 2 200 (by norm_num) (by norm_num) (by norm_num)
    (by norm_num)

/-- C10: hfe_open rejects any header whose nr_tracks field is zero, in
addition to the signature/revision, nr_sides and bitrate checks: a
well-signed HFE header with zero tracks never opens. -/
theorem C10_hfe_open_rejects_zero_tracks (f_sysclk_us : Nat → Nat)
    (hdr : HfeHeader) (h : hdr.nr_tracks = 0) :
    hfe_open f_sysclk_us hdr = none := by
  unfold hfe_open
  split
  · rfl
  · rw [if_pos (Or.inl h)]

/-- A well-signed HFEv3 header with zero tracks and otherwise valid
fields. -/
def hfeHdrZeroTracks : HfeHeader :=
  ⟨"HXCHFEV3", 0, 0, 2, 0, 250, 0, 0, 1, 255, 1⟩

theorem C10_hfe_open_rejects_zero_tracks_witness :
    hfe_open (fun u => u * 72) hfeHdrZeroTracks = none :=
  C10_hfe_open_rejects_zero_tracks (fun u => u * 72) hfeHdrZeroTracks rfl

/-- C7: on an HFEv3 image, a byte-aligned bitrate opcode makes the flux
iteration consume 16 bits (opcode plus operand byte), emit no flux, and
set ticks_per_cell = sysclk_us(2)*16*x/72 where x is the operand byte
value (the byte bit-reversed out of HFE LSB-first bit order, the
source's variable x). -/
theorem C7_hfe_bitrate_opcode (f_sysclk_us : Nat → Nat)
    (maxPulses randByte : Nat) (buf : Nat → Nat) (s : HfeFluxState)
    (hbc : s.cur_bc < s.tracklen_bc)
    (hy : s.bc_c % 8 = 0)
    (hop : buf (s.bc_c / 8) &&& 15 = 15)
    (hbr : buf (s.bc_c / 8) >>> 4 = 4) :
    hfe_rdata_flux_step true f_sysclk_us maxPulses randByte buf s
      = ({ s with
            ticks_per_cell :=
              f_sysclk_us 2 * 16 * rbit8 (buf (s.bc_c / 8 + 1)) / 72,
            write_bc_ticks :=
              f_sysclk_us 2 * 16 * rbit8 (buf (s.bc_c / 8 + 1)) / 72 / 16,
            bc_c := s.bc_c + 16,
            cur_bc := s.cur_bc + 16 }, []) := by
  unfold hfe_rdata_flux_step
  rw [if_neg (by omega)]
  dsimp only
  rw [hy, Nat.shiftRight_zero]
  rw [if_pos ⟨rfl, rfl, hop⟩]
  rw [hbr]

def hfeFluxDemo : HfeFluxState :=
  ⟨0, 0, 0, 0, 140, 8, 4096, 0, 0, fun _ => 0, 0, 0⟩

def hfeBufDemo : Nat → Nat :=
  fun i => if i = 0 then 79 else if i = 1 then 72 else 0

theorem C7_hfe_bitrate_opcode_witness :
    hfe_rdata_flux_step true (fun u => u * 72) 8 0 hfeBufDemo hfeFluxDemo
      = ({ hfeFluxDemo with
            ticks_per_cell := (fun u => u * 72) 2 * 16
              * rbit8 (hfeBufDemo (hfeFluxDemo.bc_c / 8 + 1)) / 72,
            write_bc_ticks := (fun u => u * 72) 2 * 16
              * rbit8 (hfeBufDemo (hfeFluxDemo.bc_c / 8 + 1)) / 72 / 16,
            bc_c := hfeFluxDemo.bc_c + 16,
            cur_bc := hfeFluxDemo.cur_bc + 16 }, []) :=
  C7_hfe_bitrate_opcode (fun u => u * 72) 8 0 hfeBufDemo hfeFluxDemo
    (by decide) (by decide) (by decide) (by decide)

lemma getD_set_ne (l : List Nat) (w p v : Nat) (h : w ≠ p) :
    (l.set w v).getD p 0 = l.getD p 0 := by
  rw [List.getD_eq_getElem?_getD, List.getD_eq_getElem?_getD,
    List.getElem?_set_ne h]

lemma getD_set_self (l : List Nat) (w v : Nat) (h : w < l.length) :
    (l.set w v).getD w 0 = v := by
  rw [List.getD_eq_getElem?_getD, List.getElem?_set,
    if_pos rfl, if_pos h]
  rfl

/-- Positions already passed by the hfe_write_track encode loop are never
modified again (the cursor only moves forward). -/
lemma hfe_encode_lt (data : Nat → Nat) :
    ∀ (fuel nr i w c : Nat) (wb : List Nat), nr - i ≤ fuel →
      ∀ p, p < w → (hfe_encode true data wb w c i nr).getD p 0
        = wb.getD p 0 := by
  intro fuel
  induction fuel with
  | zero =>
    intro nr i w c wb hf p hp
    rw [hfe_encode, dif_neg (by omega)]
  | succ fuel ih =>
    intro nr i w c wb hf p hp
    by_cases hi : i < nr
    · rw [hfe_encode, dif_pos hi]
      dsimp only
      by_cases hxop : wb.getD w 0 &&& 15 = 15
      · rw [if_pos ⟨rfl, hxop⟩]
        by_cases h12 : wb.getD w 0 >>> 4 = OP_skip
        · rw [if_pos h12]
          exact ih nr (i + 3) (w + 3) c wb (by omega) p (by omega)
        · rw [if_neg h12]
          by_cases h4 : wb.getD w 0 >>> 4 = OP_bitrate
          · rw [if_pos h4]
            exact ih nr (i + 2) (w + 2) c wb (by omega) p (by omega)
          · rw [if_neg h4]
            by_cases h2 : wb.getD w 0 >>> 4 = OP_rand
            · rw [if_pos h2]
              rw [ih nr (i + 1) (w + 1) (c + 1) _ (by omega) p (by omega)]
              exact getD_set_ne wb w p _ (by omega)
            · rw [if_neg h2]
              exact ih nr (i + 1) (w + 1) c wb (by omega) p (by omega)
      · rw [if_neg (by exact fun hand => hxop hand.2)]
        rw [ih nr (i + 1) (w + 1) (c + 1) _ (by omega) p (by omega)]
        exact getD_set_ne wb w p _ (by omega)
    · rw [hfe_encode, dif_neg hi]

/-- Bytes that hold a non-rand opcode anywhere in the batch are left
byte-identical by the hfe_write_track encode loop. -/
lemma hfe_encode_preserves (data : Nat → Nat) :
    ∀ (fuel nr i w c : Nat) (wb : List Nat), nr - i ≤ fuel →
      ∀ p, wb.getD p 0 &&& 15 = 15 → wb.getD p 0 >>> 4 ≠ OP_rand →
        (hfe_encode true data wb w c i nr).getD p 0 = wb.getD p 0 := by
  intro fuel
  induction fuel with
  | zero =>
    intro nr i w c wb hf p _ _
    rw [hfe_encode, dif_neg (by omega)]
  | succ fuel ih =>
    intro nr i w c wb hf p hp1 hp2
    by_cases hi : i < nr
    · rw [hfe_encode, dif_pos hi]
      dsimp only
      by_cases hxop : wb.getD w 0 &&& 15 = 15
      · rw [if_pos ⟨rfl, hxop⟩]
        by_cases h12 : wb.getD w 0 >>> 4 = OP_skip
        · rw [if_pos h12]
          exact ih nr (i + 3) (w + 3) c wb (by omega) p hp1 hp2
        · rw [if_neg h12]
          by_cases h4 : wb.getD w 0 >>> 4 = OP_bitrate
          · rw [if_pos h4]
            exact ih nr (i + 2) (w + 2) c wb (by omega) p hp1 hp2
          · rw [if_neg h4]
            by_cases h2 : wb.getD w 0 >>> 4 = OP_rand
            · rw [if_pos h2]
              have hpw : p ≠ w := by
                intro he
                subst he
                exact hp2 h2
              have hs := getD_set_ne wb w p (rbit8 (data c)) (fun he => hpw he.symm)
              rw [ih nr (i + 1) (w + 1) (c + 1) _ (by omega) p
                (by rwa [hs]) (by rwa [hs]), hs]
            · rw [if_neg h2]
              exact ih nr (i + 1) (w + 1) c wb (by omega) p hp1 hp2
      · rw [if_neg (by exact fun hand => hxop hand.2)]
        have hpw : p ≠ w := by
          intro he
          subst he
          exact hxop hp1
        have hs := getD_set_ne wb w p (rbit8 (data c)) (fun he => hpw he.symm)
        rw [ih nr (i + 1) (w + 1) (c + 1) _ (by omega) p
          (by rwa [hs]) (by rwa [hs]), hs]
    · rw [hfe_encode, dif_neg hi]

/-- C6: during the hfe_write_track encode loop on an HFEv3 image, every
byte holding a nop/index/bitrate/skip opcode is left byte-identical
(conjunct 1), the operand byte of skip and bitrate opcodes at the cursor
is passed over untouched (conjuncts 2, 3; skip also passes the
partially-skipped byte), and a rand opcode byte at the cursor is
overwritten with the incoming bit-reversed data byte (conjunct 4). -/
theorem C6_hfe_opcode_preservation (data : Nat → Nat) (wb : List Nat)
    (w c i nr : Nat) :
    (∀ p, wb.getD p 0 &&& 15 = 15 → wb.getD p 0 >>> 4 ≠ OP_rand →
      (hfe_encode true data wb w c i nr).getD p 0 = wb.getD p 0)
    ∧ (wb.getD w 0 &&& 15 = 15 → wb.getD w 0 >>> 4 = OP_skip →
      (hfe_encode true data wb w c i nr).getD (w + 1) 0 = wb.getD (w + 1) 0
      ∧ (hfe_encode true data wb w c i nr).getD (w + 2) 0
        = wb.getD (w + 2) 0)
    ∧ (wb.getD w 0 &&& 15 = 15 → wb.getD w 0 >>> 4 = OP_bitrate →
      (hfe_encode true data wb w c i nr).getD (w + 1) 0
        = wb.getD (w + 1) 0)
    ∧ (i < nr → w < wb.length → wb.getD w 0 &&& 15 = 15 →
      wb.getD w 0 >>> 4 = OP_rand →
      (hfe_encode true data wb w c i nr).getD w 0 = rbit8 (data c)) := by
  refine ⟨fun p => hfe_encode_preserves data (nr - i) nr i w c wb
    (Nat.le_refl _) p, ?_, ?_, ?_⟩
  · intro hop hskip
    by_cases hi : i < nr
    · rw [hfe_encode, dif_pos hi]
      dsimp only
      rw [if_pos ⟨rfl, hop⟩, if_pos hskip]
      constructor
      · exact hfe_encode_lt data (nr - (i + 3)) nr (i + 3) (w + 3) c wb
          (Nat.le_refl _) (w + 1) (by omega)
      · exact hfe_encode_lt data (nr - (i + 3)) nr (i + 3) (w + 3) c wb
          (Nat.le_refl _) (w + 2) (by omega)
    · rw [hfe_encode, dif_neg hi]
      exact ⟨rfl, rfl⟩
  · intro hop hbit
    by_cases hi : i < nr
    · rw [hfe_encode, dif_pos hi]
      dsimp only
      rw [if_pos ⟨rfl, hop⟩]
      rw [if_neg (by rw [hbit]; decide), if_pos hbit]
      exact hfe_encode_lt data (nr - (i + 2)) nr (i + 2) (w + 2) c wb
        (Nat.le_refl _) (w + 1) (by omega)
    · rw [hfe_encode, dif_neg hi]
  · intro hi hw hop hrand
    rw [hfe_encode, dif_pos hi]
    dsimp only
    rw [if_pos ⟨rfl, hop⟩]
    rw [if_neg (by rw [hrand]; decide), if_neg (by rw [hrand]; decide),
      if_pos hrand]
    rw [hfe_encode_lt data (nr - (i + 1)) nr (i + 1) (w + 1) (c + 1) _
      (Nat.le_refl _) w (by omega)]
    exact getD_set_self wb w _ hw

/-- A write batch holding: skip opcode with operands (bytes 0-2), bitrate
opcode with operand (3-4), nop opcode (5), rand opcode (6), plain data
byte (7). -/
def hfeBatchDemo : List Nat := [207, 0, 17, 79, 33, 15, 47, 34]

theorem C6_hfe_opcode_preservation_witness :
    (hfe_encode true (fun k => k + 1) hfeBatchDemo 0 0 0 8).getD 5 0
      = hfeBatchDemo.getD 5 0
    ∧ ((hfe_encode true (fun k => k + 1) hfeBatchDemo 0 0 0 8).getD (0 + 1) 0
        = hfeBatchDemo.getD (0 + 1) 0
      ∧ (hfe_encode true (fun k => k + 1) hfeBatchDemo 0 0 0 8).getD (0 + 2) 0
        = hfeBatchDemo.getD (0 + 2) 0)
    ∧ (hfe_encode true (fun k => k + 1) hfeBatchDemo 3 0 3 8).getD (3 + 1) 0
      = hfeBatchDemo.getD (3 + 1) 0
    ∧ (hfe_encode true (fun k => k + 1) hfeBatchDemo 6 0 6 8).getD 6 0
      = rbit8 ((fun k => k + 1) 0) :=
  ⟨(C6_hfe_opcode_preservation (fun k => k + 1) hfeBatchDemo 0 0 0 8).1 5
      (by decide) (by decide),
   (C6_hfe_opcode_preservation (fun k => k + 1) hfeBatchDemo 0 0 0 8).2.1
      (by decide) (by decide),
   (C6_hfe_opcode_preservation (fun k => k + 1) hfeBatchDemo 3 0 3 8).2.2.1
      (by decide) (by decide),
   (C6_hfe_opcode_preservation (fun k => k + 1) hfeBatchDemo 6 0 6 8).2.2.2
      (by decide) (by decide) (by decide) (by decide)⟩

/-- C4 counterexample: opening the 1,474,560-byte image under the default
host profile resolves the 80-cylinder 2-side 18-sector geometry, but the
data_rate field is set to 1000 — the source counts kilo-bitcells per
second (its comment: SD=250, DD=500, HD=1000, ED=2000) — not to 500 as
the claim states. -/
theorem C4_counterexample :
    (img_open_host 64 img_type 1474560).map ImgState.data_rate = some 1000
    ∧ (img_open_host 64 img_type 1474560).map ImgState.data_rate
      ≠ some 500 := by
  decide

/-- C4 (amended): opening the 1,474,560-byte image under the default host
resolves 80 cylinders, 2 sides, 18 sectors, and the state satisfies
sec_no=2, gap_3=84, has_iam=true and data_rate=1000 (the HD rate in the
source's kilo-bitcell unit; 500 kbit/s of data); with interleave 1, skew
0 and base 1 the sector map is [1, 2, ..., 18]. -/
theorem C4_pc144_open :
    (img_open_host 64 img_type 1474560).map ImgState.nr_cyls = some 80
    ∧ (img_open_host 64 img_type 1474560).map ImgState.nr_sides = some 2
    ∧ (img_open_host 64 img_type 1474560).map ImgState.nr_sectors = some 18
    ∧ (img_open_host 64 img_type 1474560).map ImgState.sec_no = some 2
    ∧ (img_open_host 64 img_type 1474560).map ImgState.gap_3 = some 84
    ∧ (img_open_host 64 img_type 1474560).map ImgState.data_rate = some 1000
    ∧ (img_open_host 64 img_type 1474560).map ImgState.has_iam = some true
    ∧ (img_open_host 64 img_type 1474560).map ImgState.interleave = some 1
    ∧ (img_open_host 64 img_type 1474560).map ImgState.skew = some 0
    ∧ (img_open_host 64 img_type 1474560).map ImgState.sec_base0 = some 1
    ∧ (img_open_host 64 img_type 1474560).map
        (fun st => (img_seek_track st 0 0 0).1)
      = some [1, 2, 3, 4, 5, 6, 7, 8, 9, 10, 11, 12, 13, 14, 15, 16, 17, 18]
    := by
  decide

def stKaypro : ImgState := (img_open_host 64 kaypro_type 409600).getD imgStateZero

/-- C5 counterexample: the Kaypro type-table entry carries base sector 0
(Kaypro numbers sectors from 0), so inter-track numbering yields
sec_base[1] = 0 + 10 = 10, not 1 + 10 = 11 as the claim states. -/
theorem C5_counterexample :
    (img_open_host 64 kaypro_type 409600).map ImgState.sec_base1 = some 10
    ∧ (img_open_host 64 kaypro_type 409600).map ImgState.sec_base1
      ≠ some 11 := by
  decide

/-- C5 (amended): opening a 409,600-byte image under the kaypro host
applies inter-track numbering with base 0: sec_base[1] = 0 + 10 = 10, and
for any cylinder the side-1 sector map built with interleave 3 is a
permutation of 10..19. -/
theorem C5_kaypro_itn :
    (img_open_host 64 kaypro_type 409600).map ImgState.sec_base1 = some 10
    ∧ (img_open_host 64 kaypro_type 409600).map ImgState.interleave = some 3
    ∧ ∀ (cyl : Nat) (st : ImgState),
        img_open_host 64 kaypro_type 409600 = some st →
        ((img_seek_track st (cyl * 2 + 1) cyl 1).1).Perm
          [10, 11, 12, 13, 14, 15, 16, 17, 18, 19] := by
  refine ⟨by decide, by decide, ?_⟩
  intro cyl st h
  have hopen : img_open_host 64 kaypro_type 409600 = some stKaypro := by decide
  rw [hopen, Option.some_inj] at h
  subst h
  have e1 : stKaypro.nr_sectors = 10 := by decide
  have e2 : stKaypro.interleave = 3 := by decide
  have e3 : stKaypro.skew = 0 := by decide
  have e4 : stKaypro.skew_cyls_only = false := by decide
  have e5 : stKaypro.nr_sides = 2 := by decide
  have e7 : stKaypro.sec_base1 = 10 := by decide
  have hmod : (cyl * 2 + 1) % 2 = 1 := by omega
  simp only [img_seek_track, sec_base_sel, e1, e2, e3, e4, e5, e7]
  norm_num [Nat.and_one_is_mod, hmod, secMap]
  decide

theorem C5_kaypro_itn_witness :
    ((img_seek_track stKaypro (4 * 2 + 1) 4 1).1).Perm
      [10, 11, 12, 13, 14, 15, 16, 17, 18, 19] :=
  C5_kaypro_itn.2.2 4 stKaypro (by decide)

lemma mfm_open_isSome2 (maxSec : Nat) (g : ImgGeo) (hs : 1 ≤ g.nr_sides)
    (hs2 : g.nr_sides ≤ 2) (hc : 1 ≤ g.nr_cyls) (hc2 : g.nr_cyls ≤ 254)
    (hn : 1 ≤ g.nr_sectors) (hn2 : g.nr_sectors ≤ maxSec) :
    ∃ st, mfm_open maxSec g = some st := by
  unfold mfm_open
  rw [if_neg (by push_neg; omega)]
  exact ⟨_, rfl⟩

lemma msx_open_isSome_of_bpb (maxSec : Nat) (b : Bpb) (fsz : Nat)
    (hsz : fsz = 320 * 1024 ∨ fsz = 360 * 1024)
    (hcond : b.bytes_per_sec = 512 ∧ (b.num_heads = 1 ∨ b.num_heads = 2)
      ∧ b.tot_sec = fsz / b.bytes_per_sec
      ∧ (b.sec_per_track = 8 ∨ b.sec_per_track = 9))
    (hopen : ∃ st, mfm_open maxSec { zeroGeo with
        sec_no := 2,
        nr_sectors := b.sec_per_track,
        nr_sides := b.num_heads,
        nr_cyls := if b.num_heads = 1 then 80 else 40,
        interleave := 1,
        sec_base0 := 1, sec_base1 := 1,
        has_iam := true } = some st) :
    (msx_open maxSec b fsz).isSome := by
  obtain ⟨st, hst⟩ := hopen
  unfold msx_open
  rw [if_pos hsz, if_pos hcond, hst]
  rfl

/-- C8: the PC-DOS BPB probe rejects (returns none, committing no
geometry) whenever the boot-sector word at offset 510 is not 0xAA55,
while the MSX probe accepts a plausible BPB — bytes_per_sec 512, heads 1
or 2, tot_sec matching the file size, 8 or 9 sectors per track — with the
signature word left entirely unchecked (b2.sig is unconstrained). -/
theorem C8_bpb_probe_signature (maxSec : Nat) (b1 b2 : Bpb) (sz : Nat)
    (h1 : b1.sig ≠ 43605)
    (h2 : sz = 327680 ∨ sz = 368640)
    (h3 : b2.bytes_per_sec = 512)
    (h4 : b2.num_heads = 1 ∨ b2.num_heads = 2)
    (h5 : b2.tot_sec = sz / b2.bytes_per_sec)
    (h6 : b2.sec_per_track = 8 ∨ b2.sec_per_track = 9)
    (h7 : 9 ≤ maxSec) :
    pc_dos_open maxSec b1 = none ∧ (msx_open maxSec b2 sz).isSome := by
  constructor
  · unfold pc_dos_open
    rw [if_pos h1]
  · refine msx_open_isSome_of_bpb maxSec b2 sz ?_ ⟨h3, h4, h5, h6⟩ ?_
    · rcases h2 with h | h
      · exact Or.inl (by omega)
      · exact Or.inr (by omega)
    · refine mfm_open_isSome2 maxSec _ ?_ ?_ ?_ ?_ ?_ ?_
      all_goals dsimp only
      · rcases h4 with h | h <;> omega
      · rcases h4 with h | h <;> omega
      · split_ifs <;> norm_num
      · split_ifs <;> norm_num
      · rcases h6 with h | h <;> omega
      · rcases h6 with h | h <;> omega

theorem C8_bpb_probe_signature_witness :
    pc_dos_open 64 ⟨0, 512, 9, 2, 1440⟩ = none
    ∧ (msx_open 64 ⟨0, 512, 9, 2, 720⟩ 368640).isSome :=
  C8_bpb_probe_signature 64 ⟨0, 512, 9, 2, 1440⟩ ⟨0, 512, 9, 2, 720⟩ 368640
    (by decide) (Or.inr rfl) rfl (Or.inr rfl) (by norm_num) (Or.inr rfl)
    (by norm_num)

end FlashFloppy
